import Mathlib

/-!
Verification development for the core.stream Go client SDK.

The definitions below are a shallow embedding of the repository's code:
bytes are `Nat` values (< 256 for genuine byte data), machine words are
`Nat` reduced modulo `2 ^ 32` where the Go code relies on 32-bit
wrap-around, fallible operations return `Option` or `Except`, and the
HTTP surface (requests, responses, the pluggable transport) is modelled
by explicit records.
-/

set_option maxRecDepth 4000

/-- The bytes of an ASCII string, as Go's `[]byte(s)` produces for ASCII input. -/
def strBytes (s : String) : List Nat :=
  s.data.map Char.toNat

/-! ## Hexadecimal encoding and decoding (Go `encoding/hex`) -/

/-- Value of one hex digit, accepting `0-9`, `a-f` and `A-F` exactly as Go's
`hex.Decode` does; `none` for any other character. -/
def hexDigitVal (c : Char) : Option Nat :=
  if '0' ≤ c ∧ c ≤ '9' then some (c.toNat - 48)
  else if 'a' ≤ c ∧ c ≤ 'f' then some (c.toNat - 87)
  else if 'A' ≤ c ∧ c ≤ 'F' then some (c.toNat - 55)
  else none

/-- Decode a hex character sequence two digits at a time; odd length or an
invalid digit yields `none`, matching the error return of `hex.DecodeString`. -/
def hexDecodeChars : List Char → Option (List Nat)
  | [] => some []
  | [_] => none
  | c1 :: c2 :: rest => do
    let hi ← hexDigitVal c1
    let lo ← hexDigitVal c2
    let tl ← hexDecodeChars rest
    pure ((hi * 16 + lo) :: tl)

/-- Go's `hex.DecodeString`: `none` models a non-nil error. -/
def hexDecode (s : String) : Option (List Nat) :=
  hexDecodeChars s.data

/-- Lowercase hex digit character, as Go's `hextable`. -/
def hexDigitChar (n : Nat) : Char :=
  if n < 10 then Char.ofNat (48 + n) else Char.ofNat (87 + n)

/-- Each byte becomes two lowercase hex digits (`hex.EncodeToString`). -/
def hexEncodeBytes : List Nat → List Char
  | [] => []
  | b :: rest => hexDigitChar (b / 16) :: hexDigitChar (b % 16) :: hexEncodeBytes rest

/-- Go's `hex.EncodeToString`. -/
def hexEncode (l : List Nat) : String :=
  String.mk (hexEncodeBytes l)

theorem hexDigitVal_hexDigitChar (n : Nat) (h : n < 16) :
    hexDigitVal (hexDigitChar n) = some n := by
  interval_cases n <;> decide

theorem hexDecode_hexEncode (l : List Nat) (h : ∀ b ∈ l, b < 256) :
    hexDecode (hexEncode l) = some l := by
  unfold hexEncode
  show hexDecodeChars (hexEncodeBytes l) = some l
  induction l with
  | nil => rfl
  | cons b rest ih =>
    have hb : b < 256 := h b (by simp)
    have hhi : b / 16 < 16 := by omega
    have hlo : b % 16 < 16 := by omega
    have ihr : hexDecodeChars (hexEncodeBytes rest) = some rest :=
      ih (fun x hx => h x (by simp [hx]))
    simp only [hexEncodeBytes, hexDecodeChars, hexDigitVal_hexDigitChar _ hhi,
      hexDigitVal_hexDigitChar _ hlo, ihr, Option.bind_some, Option.some_bind]
    have : b / 16 * 16 + b % 16 = b := by omega
    simp [this]

theorem hexEncode_ne_empty (l : List Nat) (h : l ≠ []) : hexEncode l ≠ "" := by
  cases l with
  | nil => exact absurd rfl h
  | cons b rest =>
    intro hcontra
    have : (hexEncode (b :: rest)).data = ("" : String).data := by rw [hcontra]
    simp [hexEncode, hexEncodeBytes] at this

/-! ## SHA-256 (Go `crypto/sha256`)

32-bit machine words are `Nat` values reduced modulo `2 ^ 32`. -/

/-- Reduce to a 32-bit word. -/
def w32 (n : Nat) : Nat := n % 4294967296

/-- Addition of 32-bit words with wrap-around. -/
def add32 (a b : Nat) : Nat := w32 (a + b)

/-- Rotate a 32-bit word right by `n` bits. -/
def rotr32 (n x : Nat) : Nat := w32 ((x >>> n) ||| (x <<< (32 - n)))

/-- Bitwise complement of a 32-bit word. -/
def not32 (x : Nat) : Nat := 4294967295 ^^^ w32 x

/-- SHA-256 `Ch` function. -/
def chW (x y z : Nat) : Nat := (x &&& y) ^^^ (not32 x &&& z)

/-- SHA-256 `Maj` function. -/
def majW (x y z : Nat) : Nat := (x &&& y) ^^^ (x &&& z) ^^^ (y &&& z)

/-- SHA-256 `Σ0`. -/
def bigSigma0 (x : Nat) : Nat := rotr32 2 x ^^^ rotr32 13 x ^^^ rotr32 22 x

/-- SHA-256 `Σ1`. -/
def bigSigma1 (x : Nat) : Nat := rotr32 6 x ^^^ rotr32 11 x ^^^ rotr32 25 x

/-- SHA-256 `σ0`. -/
def smallSigma0 (x : Nat) : Nat := rotr32 7 x ^^^ rotr32 18 x ^^^ (x >>> 3)

/-- SHA-256 `σ1`. -/
def smallSigma1 (x : Nat) : Nat := rotr32 17 x ^^^ rotr32 19 x ^^^ (x >>> 10)

/-- The 64 SHA-256 round constants of FIPS 180-4 (the high 32 bits of the
fractional parts of the cube roots of the first 64 primes), in decimal. -/
def sha256K : List Nat :=
  [1116352408, 1899447441, 3049323471, 3921009573, 961987163, 1508970993,
   2453635748, 2870763221, 3624381080, 310598401, 607225278, 1426881987,
   1925078388, 2162078206, 2614888103, 3248222580, 3835390401, 4022224774,
   264347078, 604807628, 770255983, 1249150122, 1555081692, 1996064986,
   2554220882, 2821834349, 2952996808, 3210313671, 3336571891, 3584528711,
   113926993, 338241895, 666307205, 773529912, 1294757372, 1396182291,
   1695183700, 1986661051, 2177026350, 2456956037, 2730485921, 2820302411,
   3259730800, 3345764771, 3516065817, 3600352804, 4094571909, 275423344,
   430227734, 506948616, 659060556, 883997877, 958139571, 1322822218,
   1537002063, 1747873779, 1955562222, 2024104815, 2227730452, 2361852424,
   2428436474, 2756734187, 3204031479, 3329325298]

/-- The eight 32-bit words of a SHA-256 hash state. -/
structure Hash8 where
  a : Nat
  b : Nat
  c : Nat
  d : Nat
  e : Nat
  f : Nat
  g : Nat
  h : Nat
deriving DecidableEq

/-- Initial SHA-256 hash state. -/
def sha256Init : Hash8 :=
  ⟨1779033703, 3144134277, 1013904242, 2773480762,
   1359893119, 2600822924, 528734635, 1541459225⟩

/-- Big-endian encoding of a 64-bit value as eight bytes. -/
def be64 (n : Nat) : List Nat :=
  [(n >>> 56) % 256, (n >>> 48) % 256, (n >>> 40) % 256, (n >>> 32) % 256,
   (n >>> 24) % 256, (n >>> 16) % 256, (n >>> 8) % 256, n % 256]

/-- SHA-256 message padding: a `0x80` byte, zeros up to 56 mod 64, then the
message bit length as a 64-bit big-endian value. -/
def sha256Pad (msg : List Nat) : List Nat :=
  let len := msg.length
  let zeros := (119 - len % 64) % 64
  msg ++ 0x80 :: List.replicate zeros 0 ++ be64 (len * 8)

/-- Pack big-endian bytes into 32-bit words (Go `binary.BigEndian.Uint32`). -/
def bytesToWords : List Nat → List Nat
  | b0 :: b1 :: b2 :: b3 :: rest =>
    (((b0 % 256) <<< 24) ||| ((b1 % 256) <<< 16) ||| ((b2 % 256) <<< 8) ||| (b3 % 256))
      :: bytesToWords rest
  | _ => []

/-- Extend the 16-word message block: each step appends
`σ1(w[i-2]) + w[i-7] + σ0(w[i-15]) + w[i-16]`. -/
def scheduleExtend (w : Array Nat) : Nat → Array Nat
  | 0 => w
  | k + 1 =>
    let i := w.size
    let nw := add32 (add32 (smallSigma1 (w.getD (i - 2) 0)) (w.getD (i - 7) 0))
      (add32 (smallSigma0 (w.getD (i - 15) 0)) (w.getD (i - 16) 0))
    scheduleExtend (w.push nw) k

/-- The 64-entry message schedule of one block. -/
def sha256Schedule (ws : List Nat) : List Nat :=
  (scheduleExtend ws.toArray 48).toList

/-- One SHA-256 compression round. -/
def sha256Round (st : Hash8) (k w : Nat) : Hash8 :=
  let t1 := add32 (add32 (add32 (add32 st.h (bigSigma1 st.e)) (chW st.e st.f st.g)) k) w
  let t2 := add32 (bigSigma0 st.a) (majW st.a st.b st.c)
  { a := add32 t1 t2, b := st.a, c := st.b, d := st.c,
    e := add32 st.d t1, f := st.e, g := st.f, h := st.g }

/-- Compress one 64-byte block into the hash state. -/
def sha256Compress (st : Hash8) (block : List Nat) : Hash8 :=
  let ws := sha256Schedule (bytesToWords block)
  let r := (sha256K.zip ws).foldl (fun s p => sha256Round s p.1 p.2) st
  { a := add32 st.a r.a, b := add32 st.b r.b, c := add32 st.c r.c, d := add32 st.d r.d,
    e := add32 st.e r.e, f := add32 st.f r.f, g := add32 st.g r.g, h := add32 st.h r.h }

/-- Split a byte list into 64-byte chunks; the fuel argument only serves
structural termination and is always at least the list length. -/
def chunks64Go : Nat → List Nat → List (List Nat)
  | 0, _ => []
  | _, [] => []
  | fuel + 1, b :: rest => (b :: rest).take 64 :: chunks64Go fuel ((b :: rest).drop 64)

/-- Split a byte list into 64-byte chunks. -/
def chunks64 (l : List Nat) : List (List Nat) := chunks64Go l.length l

/-- A 32-bit word as four big-endian bytes. -/
def wordBytes (w : Nat) : List Nat :=
  [(w >>> 24) % 256, (w >>> 16) % 256, (w >>> 8) % 256, w % 256]

/-- The eight state words in order. -/
def stateWords (st : Hash8) : List Nat :=
  [st.a, st.b, st.c, st.d, st.e, st.f, st.g, st.h]

/-- Serialize the hash state as 32 big-endian bytes. -/
def stateToBytes (st : Hash8) : List Nat :=
  ((stateWords st).map wordBytes).flatten

/-- SHA-256 of a byte string (Go `sha256.Sum256`). -/
def sha256 (msg : List Nat) : List Nat :=
  stateToBytes ((chunks64 (sha256Pad msg)).foldl sha256Compress sha256Init)

theorem stateToBytes_length (st : Hash8) : (stateToBytes st).length = 32 := rfl

theorem wordBytes_lt (w : Nat) : ∀ b ∈ wordBytes w, b < 256 := by
  intro b hb
  simp only [wordBytes, List.mem_cons, List.not_mem_nil, or_false] at hb
  rcases hb with rfl | rfl | rfl | rfl <;> omega

theorem stateToBytes_lt (st : Hash8) : ∀ b ∈ stateToBytes st, b < 256 := by
  intro b hb
  simp only [stateToBytes, List.mem_flatten, List.mem_map] at hb
  obtain ⟨l, ⟨w, _, rfl⟩, hbl⟩ := hb
  exact wordBytes_lt w b hbl

theorem sha256_length (msg : List Nat) : (sha256 msg).length = 32 :=
  stateToBytes_length _

theorem sha256_lt (msg : List Nat) : ∀ b ∈ sha256 msg, b < 256 :=
  stateToBytes_lt _

/-! ## HMAC-SHA256 (Go `crypto/hmac`) and constant-time comparison -/

/-- HMAC-SHA256 key preprocessing: keys longer than the 64-byte block size
are hashed first, then the key is zero-padded to the block size. -/
def hmacKey (key : List Nat) : List Nat :=
  let k := if key.length > 64 then sha256 key else key
  k ++ List.replicate (64 - k.length) 0

/-- Go's `hmac.New(sha256.New, key)` followed by `Write(msg)` and `Sum(nil)`:
`H((key' ^^^ opad) ++ H((key' ^^^ ipad) ++ msg))`. -/
def hmacSha256 (key msg : List Nat) : List Nat :=
  let k := hmacKey key
  let ipad := k.map (fun b => b ^^^ 0x36)
  let opad := k.map (fun b => b ^^^ 0x5c)
  sha256 (opad ++ sha256 (ipad ++ msg))

theorem hmacSha256_length (key msg : List Nat) : (hmacSha256 key msg).length = 32 :=
  sha256_length _

theorem hmacSha256_lt (key msg : List Nat) : ∀ b ∈ hmacSha256 key msg, b < 256 :=
  sha256_lt _

/-- Go's `subtle.ConstantTimeCompare`, as used by `hmac.Equal`: unequal
lengths compare unequal, otherwise the or-accumulated xor of all byte pairs
must be zero. -/
def constantTimeCompare (x y : List Nat) : Bool :=
  if x.length = y.length then
    ((x.zip y).foldl (fun v p => v ||| (p.1 ^^^ p.2)) 0) == 0
  else false

theorem constantTimeCompare_foldl_self (l : List Nat) (v : Nat) :
    ((l.zip l).foldl (fun v p => v ||| (p.1 ^^^ p.2)) v) = v := by
  induction l generalizing v with
  | nil => rfl
  | cons a rest ih =>
    simp only [List.zip_cons_cons, List.foldl_cons, Nat.xor_self, Nat.or_zero]
    exact ih v

theorem constantTimeCompare_self (l : List Nat) : constantTimeCompare l l = true := by
  simp [constantTimeCompare, constantTimeCompare_foldl_self]

/-! ## Webhook signature verification (`webhook_handler.go`) -/

/-- The HTTP header containing the HMAC signature. -/
def SignatureHeader : String := "X-Webhook-Signature"

/-- The constant `MaxWebhookBodySize` limits the webhook body (1 MB). -/
def MaxWebhookBodySize : Nat := 1 <<< 20

/-- Function `verifySignature`: hex-decode the signature (failure means `false`),
compute HMAC-SHA256 of the body under the secret, compare in constant time. -/
def verifySignature (body : List Nat) (signature : String) (secret : List Nat) : Bool :=
  match hexDecode signature with
  | none => false
  | some expectedSig => constantTimeCompare expectedSig (hmacSha256 secret body)

/-- Function `VerifyWebhookSignature`: the exported wrapper converting the secret
string to bytes. -/
def VerifyWebhookSignature (body : List Nat) (signature secret : String) : Bool :=
  verifySignature body signature (strBytes secret)

theorem verifySignature_hexEncode_hmac (secret body : List Nat) :
    verifySignature body (hexEncode (hmacSha256 secret body)) secret = true := by
  unfold verifySignature
  rw [hexDecode_hexEncode _ (hmacSha256_lt secret body)]
  exact constantTimeCompare_self _

theorem verifySignature_of_hexDecode_none (body : List Nat) (signature : String)
    (secret : List Nat) (h : hexDecode signature = none) :
    verifySignature body signature secret = false := by
  unfold verifySignature
  rw [h]

/-! ## JSON (Go `encoding/json`)

A byte-level JSON parser at the granularity the claims need. Strings are
decoded byte-by-byte (a byte ≥ 0x80 becomes a single character rather than
part of a multi-byte UTF-8 rune), and numbers keep their raw token text;
neither refinement affects any notification or error-envelope field, which
are all strings. -/

inductive Json where
  | null
  | boolean (b : Bool)
  | num (s : String)
  | str (s : String)
  | arr (elems : List Json)
  | obj (fields : List (String × Json))

/-- JSON whitespace bytes: space, tab, newline, carriage return. -/
def isWsByte (b : Nat) : Bool := b = 32 || b = 9 || b = 10 || b = 13

/-- Drop leading JSON whitespace. -/
def skipWs : List Nat → List Nat
  | [] => []
  | b :: rest => if isWsByte b then skipWs rest else b :: rest

/-- ASCII decimal digit bytes. -/
def isDigitByte (b : Nat) : Bool := 48 ≤ b && b ≤ 57

/-- Parse the characters of a JSON string after the opening quote, handling
the escapes of the JSON grammar; control bytes below 0x20 are rejected. -/
def parseStringChars : Nat → List Nat → Option (List Char × List Nat)
  | 0, _ => none
  | _, [] => none
  | fuel + 1, b :: rest =>
    if b = 34 then some ([], rest)
    else if b = 92 then
      match rest with
      | [] => none
      | e :: rest2 =>
        if e = 34 || e = 92 || e = 47 then
          (parseStringChars fuel rest2).map (fun p => (Char.ofNat e :: p.1, p.2))
        else if e = 98 then (parseStringChars fuel rest2).map (fun p => (Char.ofNat 8 :: p.1, p.2))
        else if e = 102 then (parseStringChars fuel rest2).map (fun p => (Char.ofNat 12 :: p.1, p.2))
        else if e = 110 then (parseStringChars fuel rest2).map (fun p => (Char.ofNat 10 :: p.1, p.2))
        else if e = 114 then (parseStringChars fuel rest2).map (fun p => (Char.ofNat 13 :: p.1, p.2))
        else if e = 116 then (parseStringChars fuel rest2).map (fun p => (Char.ofNat 9 :: p.1, p.2))
        else if e = 117 then
          match rest2 with
          | h1 :: h2 :: h3 :: h4 :: rest3 => do
            let v1 ← hexDigitVal (Char.ofNat h1)
            let v2 ← hexDigitVal (Char.ofNat h2)
            let v3 ← hexDigitVal (Char.ofNat h3)
            let v4 ← hexDigitVal (Char.ofNat h4)
            let p ← parseStringChars fuel rest3
            pure (Char.ofNat (((v1 * 16 + v2) * 16 + v3) * 16 + v4) :: p.1, p.2)
          | _ => none
        else none
    else if b < 32 then none
    else (parseStringChars fuel rest).map (fun p => (Char.ofNat b :: p.1, p.2))

/-- Leading decimal digits of a byte list, and the remainder. -/
def digitsOf (l : List Nat) : List Nat × List Nat :=
  (l.takeWhile isDigitByte, l.dropWhile isDigitByte)

/-- Optional fraction part of a JSON number. -/
def parseFrac : List Nat → Option (List Nat × List Nat)
  | 46 :: rest =>
    let (ds, rest2) := digitsOf rest
    if ds.isEmpty then none else some (46 :: ds, rest2)
  | l => some ([], l)

/-- Optional exponent part of a JSON number. -/
def parseExp : List Nat → Option (List Nat × List Nat)
  | [] => some ([], [])
  | b :: rest =>
    if b = 101 || b = 69 then
      match rest with
      | [] => none
      | s :: rest2 =>
        if s = 43 || s = 45 then
          let (ds, rest3) := digitsOf rest2
          if ds.isEmpty then none else some (b :: s :: ds, rest3)
        else
          let (ds, rest3) := digitsOf rest
          if ds.isEmpty then none else some (b :: ds, rest3)
    else some ([], b :: rest)

/-- A JSON number token: optional minus, integer part with no leading zero,
optional fraction, optional exponent. -/
def parseNumberToken (input : List Nat) : Option (List Nat × List Nat) :=
  let (sign, afterSign) : List Nat × List Nat :=
    match input with
    | 45 :: rest => ([45], rest)
    | _ => ([], input)
  match afterSign with
  | [] => none
  | b :: rest =>
    if b = 48 then do
      let (f, r1) ← parseFrac rest
      let (e, r2) ← parseExp r1
      pure (sign ++ 48 :: f ++ e, r2)
    else if isDigitByte b then do
      let (ds, r0) := digitsOf (b :: rest)
      let (f, r1) ← parseFrac r0
      let (e, r2) ← parseExp r1
      pure (sign ++ ds ++ f ++ e, r2)
    else none

mutual

/-- Parse one JSON value; the fuel argument bounds recursion depth. -/
def parseValue : Nat → List Nat → Option (Json × List Nat)
  | 0, _ => none
  | fuel + 1, input =>
    match skipWs input with
    | [] => none
    | b :: rest =>
      if b = 110 then
        if rest.take 3 = [117, 108, 108] then some (Json.null, rest.drop 3) else none
      else if b = 116 then
        if rest.take 3 = [114, 117, 101] then some (Json.boolean true, rest.drop 3) else none
      else if b = 102 then
        if rest.take 4 = [97, 108, 115, 101] then some (Json.boolean false, rest.drop 4) else none
      else if b = 34 then
        (parseStringChars (rest.length + 1) rest).map (fun p => (Json.str (String.mk p.1), p.2))
      else if b = 91 then
        match skipWs rest with
        | 93 :: rest2 => some (Json.arr [], rest2)
        | rest1 => (parseElems fuel rest1).map (fun p => (Json.arr p.1, p.2))
      else if b = 123 then
        match skipWs rest with
        | 125 :: rest2 => some (Json.obj [], rest2)
        | rest1 => (parseMembers fuel rest1).map (fun p => (Json.obj p.1, p.2))
      else
        (parseNumberToken (b :: rest)).map (fun p => (Json.num (String.mk (p.1.map Char.ofNat)), p.2))

/-- Parse the elements of a non-empty JSON array, up to the closing bracket. -/
def parseElems : Nat → List Nat → Option (List Json × List Nat)
  | 0, _ => none
  | fuel + 1, input => do
    let (v, rest) ← parseValue fuel input
    match skipWs rest with
    | 44 :: rest2 => (parseElems fuel rest2).map (fun p => (v :: p.1, p.2))
    | 93 :: rest2 => some ([v], rest2)
    | _ => none

/-- Parse the members of a non-empty JSON object, up to the closing brace. -/
def parseMembers : Nat → List Nat → Option (List (String × Json) × List Nat)
  | 0, _ => none
  | fuel + 1, input =>
    match skipWs input with
    | 34 :: rest => do
      let (key, rest1) ← parseStringChars (rest.length + 1) rest
      match skipWs rest1 with
      | 58 :: rest2 => do
        let (v, rest3) ← parseValue fuel rest2
        match skipWs rest3 with
        | 44 :: rest4 => (parseMembers fuel rest4).map (fun p => ((String.mk key, v) :: p.1, p.2))
        | 125 :: rest4 => some ([(String.mk key, v)], rest4)
        | _ => none
      | _ => none
    | _ => none

end

/-- Parse a complete JSON document: one value with only trailing whitespace,
as `json.Unmarshal` requires; `none` models a non-nil error. -/
def Json.parse (input : List Nat) : Option Json :=
  match parseValue (2 * input.length + 4) input with
  | some (j, rest) => if skipWs rest = [] then some j else none
  | none => none

/-! ## Webhook notification decoding (`types.go`, `webhook_handler.go`) -/

/-- Structure `WebhookNotification` from `types.go`. The `Timestamp` field is Go's
`time.Time`, decoded from an RFC3339 JSON string; it is modelled here as the
raw string (format validation inside `time.Time.UnmarshalJSON` is not
modelled), and its zero value as `""`. -/
structure WebhookNotification where
  ID : String
  AlertID : String
  StreamID : String
  StreamerID : String
  MatchedPhrase : String
  ContextText : String
  Timestamp : String
  FullTranscript : String
deriving DecidableEq

/-- The zero value of `WebhookNotification`, the state `json.Unmarshal`
starts from. -/
def emptyNotification : WebhookNotification := ⟨"", "", "", "", "", "", "", ""⟩

/-- Go's `json.Unmarshal` semantics for one string-typed struct field: a JSON
string sets the field, `null` leaves it unchanged, any other value is a
type error. -/
def setStringField (v : Json) (cur : String) : Option String :=
  match v with
  | .str s => some s
  | .null => some cur
  | _ => none

/-- Fold the members of the notification object over the struct, matching
the `json:"..."` tags; unknown keys are ignored and later duplicates win,
as in `encoding/json`. -/
def decodeNotifFields : List (String × Json) → WebhookNotification → Option WebhookNotification
  | [], n => some n
  | (k, v) :: rest, n =>
    if k = "id" then (setStringField v n.ID).bind fun s => decodeNotifFields rest { n with ID := s }
    else if k = "alert_id" then (setStringField v n.AlertID).bind fun s => decodeNotifFields rest { n with AlertID := s }
    else if k = "stream_id" then (setStringField v n.StreamID).bind fun s => decodeNotifFields rest { n with StreamID := s }
    else if k = "streamer_id" then (setStringField v n.StreamerID).bind fun s => decodeNotifFields rest { n with StreamerID := s }
    else if k = "matched_phrase" then (setStringField v n.MatchedPhrase).bind fun s => decodeNotifFields rest { n with MatchedPhrase := s }
    else if k = "context_text" then (setStringField v n.ContextText).bind fun s => decodeNotifFields rest { n with ContextText := s }
    else if k = "timestamp" then (setStringField v n.Timestamp).bind fun s => decodeNotifFields rest { n with Timestamp := s }
    else if k = "full_transcript" then (setStringField v n.FullTranscript).bind fun s => decodeNotifFields rest { n with FullTranscript := s }
    else decodeNotifFields rest n

/-- Unmarshal a parsed JSON value into a `WebhookNotification`: `null` is a
no-op on the zero value, an object is folded field by field, anything else
is a type error. -/
def decodeNotification (j : Json) : Option WebhookNotification :=
  match j with
  | .null => some emptyNotification
  | .obj fields => decodeNotifFields fields emptyNotification
  | _ => none

/-- Function `ParseWebhookNotification` from `webhook_handler.go`: `json.Unmarshal`
of the body into a `WebhookNotification`; `none` models a non-nil error. -/
def ParseWebhookNotification (body : List Nat) : Option WebhookNotification :=
  (Json.parse body).bind decodeNotification

/-! ## The API error envelope (`errors.go`, client `request`) -/

/-- The anonymous envelope struct `request` unmarshals an error body into:
`\x7b"error": \x7b"code": ..., "message": ...\x7d\x7d`. -/
structure ErrorEnvelope where
  code : String
  message : String
deriving DecidableEq

/-- Decode the inner `error` object: `code` and `message` are string
fields, unknown keys are ignored. -/
def decodeEnvelopeInner : List (String × Json) → ErrorEnvelope → Option ErrorEnvelope
  | [], e => some e
  | (k, v) :: rest, e =>
    if k = "code" then (setStringField v e.code).bind fun s => decodeEnvelopeInner rest { e with code := s }
    else if k = "message" then (setStringField v e.message).bind fun s => decodeEnvelopeInner rest { e with message := s }
    else decodeEnvelopeInner rest e

/-- Decode the outer envelope object: only the `error` key is significant
and must hold an object (or `null`, a no-op). -/
def decodeEnvelopeFields : List (String × Json) → ErrorEnvelope → Option ErrorEnvelope
  | [], e => some e
  | (k, v) :: rest, e =>
    if k = "error" then
      match v with
      | .obj inner => (decodeEnvelopeInner inner e).bind fun e2 => decodeEnvelopeFields rest e2
      | .null => decodeEnvelopeFields rest e
      | _ => none
    else decodeEnvelopeFields rest e

/-- Go's `json.Unmarshal` of a response body into the error envelope struct. -/
def decodeErrorEnvelope (j : Json) : Option ErrorEnvelope :=
  match j with
  | .null => some ⟨"", ""⟩
  | .obj fields => decodeEnvelopeFields fields ⟨"", ""⟩
  | _ => none

/-- Parse and decode an error-envelope body; `none` models a non-nil
`json.Unmarshal` error, after which `request` leaves code and message empty. -/
def parseErrorEnvelope (body : List Nat) : Option ErrorEnvelope :=
  (Json.parse body).bind decodeErrorEnvelope

/-! ## The webhook receiver (`webhook_handler.go`) -/

/-- The user handler `func(*WebhookNotification) error`; the Bool result
`true` models a non-nil error return. -/
def WebhookHandler := WebhookNotification → Bool

/-- Structure `WebhookReceiver`: secret bytes, user handler, body-size cap and the
verification flag. -/
structure WebhookReceiver where
  secret : List Nat
  handler : WebhookHandler
  maxBodySize : Nat
  skipVerification : Bool

/-- Type `WebhookReceiverOption` is a function type in Go; the only option the
package defines is `WithoutSignatureVerification`, so the options are
modelled by this one-constructor type. -/
inductive WebhookReceiverOption where
  | withoutSignatureVerification

/-- Apply one receiver option; `WithoutSignatureVerification` sets
`skipVerification`. -/
def applyWebhookReceiverOption (r : WebhookReceiver) :
    WebhookReceiverOption → WebhookReceiver
  | .withoutSignatureVerification => { r with skipVerification := true }

/-- Constructor `NewWebhookReceiver`: secret converted to bytes, the 1 MB default body
cap, verification on unless an option turns it off. -/
def NewWebhookReceiver (secret : String) (handler : WebhookHandler)
    (opts : List WebhookReceiverOption) : WebhookReceiver :=
  opts.foldl applyWebhookReceiverOption
    { secret := strBytes secret, handler := handler,
      maxBodySize := MaxWebhookBodySize, skipVerification := false }

/-- One inbound HTTP request as the receiver observes it: the method, the
signature header value (`""` both for an absent and for an empty header,
since `Header.Get` cannot distinguish them), the bytes the sender
transmitted, and whether reading the body fails. -/
structure HttpRequest where
  method : String
  sigHeader : String
  body : List Nat
  readError : Bool

/-- The response the receiver writes: status code and body (`http.Error`
appends a newline to its message). -/
structure HttpResponse where
  status : Nat
  body : String
deriving DecidableEq

/-- The observable effect of one `ServeHTTP` call: the response written and
the notifications passed to the user handler, in order. -/
structure ServeResult where
  response : HttpResponse
  handlerCalls : List WebhookNotification
deriving DecidableEq

/-- The receiver pipeline from the signature check on, applied to the body
bytes actually read: signature check unless skipped, payload decode,
dispatch. -/
def WebhookReceiver.handleBody (r : WebhookReceiver) (sigHeader : String)
    (body : List Nat) : ServeResult :=
  if !r.skipVerification && sigHeader == "" then
    ⟨⟨401, "corestream: missing webhook signature\n"⟩, []⟩
  else if !r.skipVerification && !verifySignature body sigHeader r.secret then
    ⟨⟨401, "corestream: invalid webhook signature\n"⟩, []⟩
  else
    match ParseWebhookNotification body with
    | none => ⟨⟨400, "invalid payload\n"⟩, []⟩
    | some n =>
      if r.handler n then ⟨⟨500, "handler error\n"⟩, [n]⟩
      else ⟨⟨200, "\x7b\"status\":\"ok\"\x7d"⟩, [n]⟩

/-- Method `WebhookReceiver.ServeHTTP`: method check, body read through
`io.LimitReader(req.Body, r.maxBodySize)` (modelled as `List.take`), then
the remaining stages on the bytes read. -/
def WebhookReceiver.ServeHTTP (r : WebhookReceiver) (req : HttpRequest) : ServeResult :=
  if req.method != "POST" then
    ⟨⟨405, "method not allowed\n"⟩, []⟩
  else if req.readError then
    ⟨⟨400, "failed to read body\n"⟩, []⟩
  else
    r.handleBody req.sigHeader (req.body.take r.maxBodySize)

/-! ## The outbound client (`NewClient` / `request`, and `errors.go`) -/

/-- Default API base address. -/
def defaultBaseURL : String := "https://api.core.stream"

/-- Structure `APIError` from `errors.go`. -/
structure APIError where
  StatusCode : Nat
  Code : String
  Message : String
deriving DecidableEq

/-- The error values of the package, one constructor per distinct error
site of `NewClient` and `request` (Go builds them with `fmt.Errorf` or
returns `*APIError`). -/
inductive CSError where
  | missingToken
  | invalidBaseURL (url : String)
  | nilHTTPClient
  | invalidPath (path : String)
  | encodeFailed
  | createRequestFailed
  | transportFailed
  | readResponseFailed
  | api (e : APIError)
  | decodeFailed
deriving DecidableEq

/-- The configuration errors of the spec's error taxonomy: invalid base
address, missing credential, invalid (nil) transport. -/
def CSError.isConfigError : CSError → Bool
  | .missingToken => true
  | .invalidBaseURL _ => true
  | .nilHTTPClient => true
  | _ => false

/-- Helper `isStatusCode` from `errors.go`: `errors.As` succeeds only on
`*APIError` values, then the status codes are compared. -/
def isStatusCode (e : CSError) (statusCode : Nat) : Bool :=
  match e with
  | .api a => a.StatusCode == statusCode
  | _ => false

/-- Predicate `IsNotFound` from `errors.go`. -/
def IsNotFound (e : CSError) : Bool := isStatusCode e 404

/-- Predicate `IsUnauthorized` from `errors.go`. -/
def IsUnauthorized (e : CSError) : Bool := isStatusCode e 401

/-- Predicate `IsRateLimited` from `errors.go`. -/
def IsRateLimited (e : CSError) : Bool := isStatusCode e 429

/-- Predicate `IsForbidden` from `errors.go`. -/
def IsForbidden (e : CSError) : Bool := isStatusCode e 403

/-- The `Client`: base address, bearer token, pluggable transport. The
`HTTPClient` interface value is an opaque handle; `none` models a nil
interface. -/
structure Client where
  baseURL : String
  token : String
  httpClient : Option Nat
deriving DecidableEq

/-- The package's client options (`Option` is a function type in Go; the
package defines exactly these two). `withBaseURL` carries the outcome of
`url.Parse` on its argument — the URL library's answer, an environment
input of the embedding. -/
inductive ClientOption where
  | withBaseURL (baseURL : String) (parsed : Option String)
  | withHTTPClient (httpClient : Option Nat)

/-- Apply one client option: `WithBaseURL` fails when `url.Parse` failed,
`WithHTTPClient` rejects a nil client. -/
def applyClientOption (c : Client) : ClientOption → Except CSError Client
  | .withBaseURL b parsed =>
    match parsed with
    | none => .error (.invalidBaseURL b)
    | some u => .ok { c with baseURL := u }
  | .withHTTPClient h =>
    match h with
    | none => .error .nilHTTPClient
    | some hc => .ok { c with httpClient := some hc }

/-- Constructor `NewClient`: an empty token is rejected, then the options apply in
order and the first failing option aborts construction. -/
def NewClient (token : String) (opts : List ClientOption) : Except CSError Client :=
  if token == "" then .error .missingToken
  else
    opts.foldlM applyClientOption
      { baseURL := defaultBaseURL, token := token, httpClient := some 0 }

/-- A transport exchange outcome: the response status, and the outcome of
`io.ReadAll` on the response body (`none` models a read failure). -/
structure TransportResponse where
  status : Nat
  bodyRead : Option (List Nat)

/-- The environment one `request` call runs in: the outcomes of
`c.baseURL.Parse(path)`, of `json.Marshal` on the request body, of
`http.NewRequestWithContext`, and of the transport's `Do` (with `none`
modelling each operation's error). -/
structure CallEnv where
  resolve : Option String
  marshal : Option (List Nat)
  newRequestOk : Bool
  transport : Option TransportResponse

/-- Method `Client.request`: resolve the path against the base URL, marshal the
body when one is supplied, build the outgoing request, run the transport,
read the response; a status ≥ 400 becomes an `APIError` carrying the
envelope's code and message when the body parses, and only the status
otherwise; on success the body is decoded when a result destination was
supplied and the body is non-empty. Header assembly (`Authorization`,
`User-Agent`, `Accept`, `Content-Type`) has no failure path and no
observable effect in this model. -/
def Client.request (_c : Client) (path : String) (env : CallEnv)
    (hasBody wantResult : Bool) : Except CSError (Option Json) :=
  match env.resolve with
  | none => .error (.invalidPath path)
  | some _u =>
    if hasBody && env.marshal.isNone then .error .encodeFailed
    else
      if !env.newRequestOk then .error .createRequestFailed
      else
        match env.transport with
        | none => .error .transportFailed
        | some resp =>
          match resp.bodyRead with
          | none => .error .readResponseFailed
          | some respBody =>
            if resp.status ≥ 400 then
              match (if respBody.length > 0 then parseErrorEnvelope respBody else none) with
              | some e => .error (.api ⟨resp.status, e.code, e.message⟩)
              | none => .error (.api ⟨resp.status, "", ""⟩)
            else
              if wantResult && respBody.length > 0 then
                match Json.parse respBody with
                | none => .error .decodeFailed
                | some j => .ok (some j)
              else .ok none

/-! ## Receiver lemmas -/

theorem foldl_webhookOption_fields (opts : List WebhookReceiverOption) (r : WebhookReceiver) :
    (opts.foldl applyWebhookReceiverOption r).secret = r.secret ∧
    (opts.foldl applyWebhookReceiverOption r).handler = r.handler ∧
    (opts.foldl applyWebhookReceiverOption r).maxBodySize = r.maxBodySize := by
  induction opts generalizing r with
  | nil => exact ⟨rfl, rfl, rfl⟩
  | cons o rest ih =>
    cases o
    simpa [applyWebhookReceiverOption] using ih _

theorem NewWebhookReceiver_secret (secret : String) (handler : WebhookHandler)
    (opts : List WebhookReceiverOption) :
    (NewWebhookReceiver secret handler opts).secret = strBytes secret :=
  (foldl_webhookOption_fields opts _).1

theorem NewWebhookReceiver_handler (secret : String) (handler : WebhookHandler)
    (opts : List WebhookReceiverOption) :
    (NewWebhookReceiver secret handler opts).handler = handler :=
  (foldl_webhookOption_fields opts _).2.1

theorem NewWebhookReceiver_maxBodySize (secret : String) (handler : WebhookHandler)
    (opts : List WebhookReceiverOption) :
    (NewWebhookReceiver secret handler opts).maxBodySize = MaxWebhookBodySize :=
  (foldl_webhookOption_fields opts _).2.2

theorem ServeHTTP_take (r : WebhookReceiver) (req : HttpRequest) :
    r.ServeHTTP { req with body := req.body.take r.maxBodySize } = r.ServeHTTP req := by
  simp [WebhookReceiver.ServeHTTP, List.take_take]

theorem handleBody_status_mem (r : WebhookReceiver) (sigHeader : String) (body : List Nat) :
    (r.handleBody sigHeader body).response.status ∈ [405, 400, 401, 500, 200] := by
  unfold WebhookReceiver.handleBody
  split
  · simp
  · split
    · simp
    · split
      · simp
      · split <;> simp

theorem ServeHTTP_status_mem (r : WebhookReceiver) (req : HttpRequest) :
    (r.ServeHTTP req).response.status ∈ [405, 400, 401, 500, 200] := by
  unfold WebhookReceiver.ServeHTTP
  split
  · simp
  · split
    · simp
    · exact handleBody_status_mem r req.sigHeader _

theorem handleBody_calls (r : WebhookReceiver) (sigHeader : String) (body : List Nat) :
    (r.handleBody sigHeader body).handlerCalls.length ≤ 1 ∧
    ((r.handleBody sigHeader body).handlerCalls ≠ [] →
      (r.skipVerification = true ∨
        (sigHeader ≠ "" ∧ verifySignature body sigHeader r.secret = true)) ∧
      ∃ n, ParseWebhookNotification body = some n ∧
        (r.handleBody sigHeader body).handlerCalls = [n]) := by
  unfold WebhookReceiver.handleBody
  split
  · simp
  · rename_i h1
    split
    · simp
    · rename_i h2
      have hgate : r.skipVerification = true ∨
          (sigHeader ≠ "" ∧ verifySignature body sigHeader r.secret = true) := by
        cases hs : r.skipVerification with
        | true => exact Or.inl rfl
        | false =>
          refine Or.inr ⟨fun hsig => h1 (by simp [hs, hsig]), ?_⟩
          cases hv : verifySignature body sigHeader r.secret with
          | true => rfl
          | false => exact absurd (by simp [hs, hv]) h2
      split
      · simp
      · rename_i n hn
        split
        · exact ⟨by simp, fun _ => ⟨hgate, n, hn, rfl⟩⟩
        · exact ⟨by simp, fun _ => ⟨hgate, n, hn, rfl⟩⟩

/-- C1: for every inbound request, `ServeHTTP` invokes the user handler at
most once, and only when the method is POST, the body read succeeded,
verification passed (or was disabled at construction) on the bytes read,
and JSON decoding of those bytes succeeded; every earlier failure leaves
the handler uninvoked. -/
theorem ServeHTTP_handler_dispatch_gated (r : WebhookReceiver) (req : HttpRequest) :
    (r.ServeHTTP req).handlerCalls.length ≤ 1 ∧
    ((r.ServeHTTP req).handlerCalls ≠ [] →
      req.method = "POST" ∧ req.readError = false ∧
      (r.skipVerification = true ∨
        (req.sigHeader ≠ "" ∧
          verifySignature (req.body.take r.maxBodySize) req.sigHeader r.secret = true)) ∧
      ∃ n, ParseWebhookNotification (req.body.take r.maxBodySize) = some n ∧
        (r.ServeHTTP req).handlerCalls = [n]) := by
  unfold WebhookReceiver.ServeHTTP
  split
  · simp
  · rename_i hm
    split
    · simp
    · rename_i hre
      have hmethod : req.method = "POST" := by simpa using hm
      have hread : req.readError = false := by simpa using hre
      obtain ⟨hlen, himp⟩ := handleBody_calls r req.sigHeader (req.body.take r.maxBodySize)
      exact ⟨hlen, fun hne => ⟨hmethod, hread, (himp hne).1, (himp hne).2⟩⟩

/-- A user handler that always succeeds (returns a nil error). -/
def handlerOk : WebhookHandler := fun _ => false

/-- A user handler that always fails (returns a non-nil error). -/
def handlerFail : WebhookHandler := fun _ => true

/-- A POST request carrying the JSON document `null` and no signature. -/
def reqNullBody : HttpRequest := ⟨"POST", "", strBytes "null", false⟩

theorem ServeHTTP_handler_dispatch_gated_witness :
    ((NewWebhookReceiver "" handlerOk [.withoutSignatureVerification]).ServeHTTP
        reqNullBody).handlerCalls ≠ [] ∧
    (reqNullBody.method = "POST" ∧ reqNullBody.readError = false ∧
      ((NewWebhookReceiver "" handlerOk [.withoutSignatureVerification]).skipVerification = true ∨
        (reqNullBody.sigHeader ≠ "" ∧
          verifySignature
            (reqNullBody.body.take
              (NewWebhookReceiver "" handlerOk [.withoutSignatureVerification]).maxBodySize)
            reqNullBody.sigHeader
            (NewWebhookReceiver "" handlerOk [.withoutSignatureVerification]).secret = true)) ∧
      ∃ n, ParseWebhookNotification
          (reqNullBody.body.take
            (NewWebhookReceiver "" handlerOk [.withoutSignatureVerification]).maxBodySize) = some n ∧
        ((NewWebhookReceiver "" handlerOk [.withoutSignatureVerification]).ServeHTTP
            reqNullBody).handlerCalls = [n]) :=
  ⟨by decide,
   (ServeHTTP_handler_dispatch_gated
      (NewWebhookReceiver "" handlerOk [.withoutSignatureVerification]) reqNullBody).2 (by decide)⟩

/-- C2: with verification enabled, the response is fixed by the first
failing stage — 405 for a non-POST method, 401 for a missing signature,
401 for a malformed or mismatching signature, 400 when the body fails to
decode, 500 when the handler errs, and otherwise 200 with exactly the
body `\x7b"status":"ok"\x7d`. -/
theorem ServeHTTP_response_by_stage (r : WebhookReceiver) (req : HttpRequest)
    (hskip : r.skipVerification = false) :
    (req.method ≠ "POST" → (r.ServeHTTP req).response.status = 405) ∧
    (req.method = "POST" → req.readError = false → req.sigHeader = "" →
      (r.ServeHTTP req).response.status = 401) ∧
    (req.method = "POST" → req.readError = false → req.sigHeader ≠ "" →
      verifySignature (req.body.take r.maxBodySize) req.sigHeader r.secret = false →
      (r.ServeHTTP req).response.status = 401) ∧
    (req.method = "POST" → req.readError = false → req.sigHeader ≠ "" →
      verifySignature (req.body.take r.maxBodySize) req.sigHeader r.secret = true →
      ParseWebhookNotification (req.body.take r.maxBodySize) = none →
      (r.ServeHTTP req).response.status = 400) ∧
    (∀ n, req.method = "POST" → req.readError = false → req.sigHeader ≠ "" →
      verifySignature (req.body.take r.maxBodySize) req.sigHeader r.secret = true →
      ParseWebhookNotification (req.body.take r.maxBodySize) = some n →
      r.handler n = true →
      (r.ServeHTTP req).response.status = 500) ∧
    (∀ n, req.method = "POST" → req.readError = false → req.sigHeader ≠ "" →
      verifySignature (req.body.take r.maxBodySize) req.sigHeader r.secret = true →
      ParseWebhookNotification (req.body.take r.maxBodySize) = some n →
      r.handler n = false →
      (r.ServeHTTP req).response = ⟨200, "\x7b\"status\":\"ok\"\x7d"⟩) := by
  refine ⟨?_, ?_, ?_, ?_, ?_, ?_⟩
  · intro hm
    simp [WebhookReceiver.ServeHTTP, hm]
  · intro hm hre hsig
    simp [WebhookReceiver.ServeHTTP, WebhookReceiver.handleBody, hm, hre, hsig, hskip]
  · intro hm hre hsig hv
    simp [WebhookReceiver.ServeHTTP, WebhookReceiver.handleBody, hm, hre, hsig, hskip, hv]
  · intro hm hre hsig hv hp
    simp [WebhookReceiver.ServeHTTP, WebhookReceiver.handleBody, hm, hre, hsig, hskip, hv, hp]
  · intro n hm hre hsig hv hp hh
    simp [WebhookReceiver.ServeHTTP, WebhookReceiver.handleBody, hm, hre, hsig, hskip, hv, hp, hh]
  · intro n hm hre hsig hv hp hh
    simp [WebhookReceiver.ServeHTTP, WebhookReceiver.handleBody, hm, hre, hsig, hskip, hv, hp, hh]

/-- A POST request whose body is the JSON `null`, signed with
HMAC-SHA256 under the key `"k"`. -/
def reqSigned : HttpRequest :=
  ⟨"POST", hexEncode (hmacSha256 (strBytes "k") (strBytes "null")), strBytes "null", false⟩

theorem ServeHTTP_response_by_stage_witness :
    ((NewWebhookReceiver "k" handlerOk []).ServeHTTP reqSigned).response =
      ⟨200, "\x7b\"status\":\"ok\"\x7d"⟩ :=
  (ServeHTTP_response_by_stage (NewWebhookReceiver "k" handlerOk []) reqSigned
      rfl).2.2.2.2.2 emptyNotification rfl rfl (by decide) (by decide) (by decide) rfl

/-- C6: every receiver built by `NewWebhookReceiver` caps the body read at
1,048,576 bytes — at most that many bytes are read, and the whole pipeline
(signature verification and payload parsing included) observes only the
bytes under the cap, since the cap is applied before any later stage. -/
theorem ServeHTTP_body_read_limited (secret : String) (handler : WebhookHandler)
    (opts : List WebhookReceiverOption) (req : HttpRequest) :
    (NewWebhookReceiver secret handler opts).maxBodySize = 1048576 ∧
    (req.body.take (NewWebhookReceiver secret handler opts).maxBodySize).length ≤ 1048576 ∧
    (NewWebhookReceiver secret handler opts).ServeHTTP req =
      (NewWebhookReceiver secret handler opts).ServeHTTP
        { req with body := req.body.take (NewWebhookReceiver secret handler opts).maxBodySize } := by
  have hm : (NewWebhookReceiver secret handler opts).maxBodySize = 1048576 := by
    rw [NewWebhookReceiver_maxBodySize]
    rfl
  refine ⟨hm, ?_, (ServeHTTP_take _ _).symm⟩
  rw [hm]
  exact List.length_take_le 1048576 req.body

/-- C10: a body longer than the configured maximum is not rejected for its
size — there is no 413 response; the receiver silently works on the first
`maxBodySize` bytes for verification and parsing alike. -/
theorem ServeHTTP_oversized_truncated (secret : String) (handler : WebhookHandler)
    (opts : List WebhookReceiverOption) (req : HttpRequest)
    (_hlong : req.body.length > (NewWebhookReceiver secret handler opts).maxBodySize) :
    ((NewWebhookReceiver secret handler opts).ServeHTTP req).response.status ≠ 413 ∧
    (NewWebhookReceiver secret handler opts).ServeHTTP req =
      (NewWebhookReceiver secret handler opts).ServeHTTP
        { req with body := req.body.take (NewWebhookReceiver secret handler opts).maxBodySize } := by
  constructor
  · intro h413
    have hmem := ServeHTTP_status_mem (NewWebhookReceiver secret handler opts) req
    rw [h413] at hmem
    simp at hmem
  · exact (ServeHTTP_take _ _).symm

theorem ServeHTTP_oversized_truncated_witness :
    (List.replicate 1048577 0).length >
      (NewWebhookReceiver "k" handlerOk []).maxBodySize ∧
    ((NewWebhookReceiver "k" handlerOk []).ServeHTTP
        ⟨"POST", "", List.replicate 1048577 0, false⟩).response.status ≠ 413 :=
  have h : (List.replicate 1048577 0).length >
      (NewWebhookReceiver "k" handlerOk []).maxBodySize := by
    rw [NewWebhookReceiver_maxBodySize, List.length_replicate]
    decide
  ⟨h, (ServeHTTP_oversized_truncated "k" handlerOk []
        ⟨"POST", "", List.replicate 1048577 0, false⟩ h).1⟩

/-- C7: a signature string that is not valid hexadecimal (odd length or
any non-hex character) always fails verification with a plain `false`,
both through the exported wrapper and the internal check: the hex-decode
error is swallowed — there is no distinct error outcome, and the function
is total. -/
theorem verify_nonhex_signature_false (body : List Nat) (signature secret : String)
    (h : hexDecode signature = none) :
    VerifyWebhookSignature body signature secret = false ∧
    ∀ secretBytes : List Nat, verifySignature body signature secretBytes = false :=
  ⟨verifySignature_of_hexDecode_none body signature (strBytes secret) h,
   fun secretBytes => verifySignature_of_hexDecode_none body signature secretBytes h⟩

theorem verify_nonhex_signature_false_witness :
    hexDecode "not-hex" = none ∧ hexDecode "abc" = none ∧
    VerifyWebhookSignature (strBytes "\x7b\"id\":\"test\"\x7d") "not-hex" "test-secret" = false :=
  ⟨by decide, by decide,
   (verify_nonhex_signature_false (strBytes "\x7b\"id\":\"test\"\x7d") "not-hex" "test-secret"
      (by decide)).1⟩

theorem ServeHTTP_success_calls (r : WebhookReceiver) (req : HttpRequest)
    (hm : req.method = "POST") (hre : req.readError = false)
    (hgate : r.skipVerification = true ∨
      (req.sigHeader ≠ "" ∧
        verifySignature (req.body.take r.maxBodySize) req.sigHeader r.secret = true))
    (n : WebhookNotification)
    (hp : ParseWebhookNotification (req.body.take r.maxBodySize) = some n) :
    (r.ServeHTTP req).handlerCalls = [n] := by
  unfold WebhookReceiver.ServeHTTP
  rw [if_neg (by simp [hm]), if_neg (by simp [hre])]
  unfold WebhookReceiver.handleBody
  have h1 : (!r.skipVerification && (req.sigHeader == "")) = false := by
    rcases hgate with hskip | ⟨hs, _⟩
    · simp [hskip]
    · simp [hs]
  have h2 : (!r.skipVerification &&
      !verifySignature (req.body.take r.maxBodySize) req.sigHeader r.secret) = false := by
    rcases hgate with hskip | ⟨_, hv⟩
    · simp [hskip]
    · simp [hv]
  rw [if_neg (by simp [h1]), if_neg (by simp [h2])]
  simp only [hp]
  split <;> rfl

/-- C9: the constructor accepts an empty secret with verification still
enabled — `skipVerification` stays `false` — and a request signed with
HMAC-SHA256 under the empty key then passes verification and reaches the
handler. -/
theorem NewWebhookReceiver_empty_secret (handler : WebhookHandler) (body : List Nat)
    (n : WebhookNotification) (hp : ParseWebhookNotification body = some n)
    (hlen : body.length ≤ MaxWebhookBodySize) :
    (NewWebhookReceiver "" handler []).skipVerification = false ∧
    ((NewWebhookReceiver "" handler []).ServeHTTP
        ⟨"POST", hexEncode (hmacSha256 [] body), body, false⟩).handlerCalls = [n] := by
  have hmax : (NewWebhookReceiver "" handler []).maxBodySize = MaxWebhookBodySize :=
    NewWebhookReceiver_maxBodySize "" handler []
  have htake : body.take (NewWebhookReceiver "" handler []).maxBodySize = body := by
    rw [hmax]
    exact List.take_of_length_le hlen
  have hsigne : hexEncode (hmacSha256 [] body) ≠ "" := by
    apply hexEncode_ne_empty
    intro hnil
    have h32 := hmacSha256_length [] body
    rw [hnil] at h32
    simp at h32
  have hverify : verifySignature body (hexEncode (hmacSha256 [] body))
      (NewWebhookReceiver "" handler []).secret = true := by
    rw [NewWebhookReceiver_secret]
    exact verifySignature_hexEncode_hmac (strBytes "") body
  refine ⟨rfl, ?_⟩
  refine ServeHTTP_success_calls _ _ rfl rfl (Or.inr ⟨hsigne, ?_⟩) n (by rw [htake]; exact hp)
  rw [htake]
  exact hverify

theorem NewWebhookReceiver_empty_secret_witness :
    ParseWebhookNotification (strBytes "null") = some emptyNotification ∧
    (strBytes "null").length ≤ MaxWebhookBodySize ∧
    ((NewWebhookReceiver "" handlerOk []).ServeHTTP
        ⟨"POST", hexEncode (hmacSha256 [] (strBytes "null")), strBytes "null", false⟩).handlerCalls =
      [emptyNotification] :=
  ⟨by decide, by decide,
   (NewWebhookReceiver_empty_secret handlerOk (strBytes "null") emptyNotification
      (by decide) (by decide)).2⟩

/-- C8: the standalone primitives compute exactly what the receiver's
stages compute — for a POST request that reaches the signature stage, the
receiver rejects with 401 precisely when `VerifyWebhookSignature` returns
`false` on the bytes read, and when it returns `true` the receiver rejects
with 400 precisely when `ParseWebhookNotification` fails, dispatching the
very notification `ParseWebhookNotification` produces otherwise. -/
theorem standalone_primitives_match_receiver (secret : String) (handler : WebhookHandler)
    (opts : List WebhookReceiverOption) (req : HttpRequest)
    (hskip : (NewWebhookReceiver secret handler opts).skipVerification = false)
    (hm : req.method = "POST") (hr : req.readError = false) (hs : req.sigHeader ≠ "") :
    (((NewWebhookReceiver secret handler opts).ServeHTTP req).response.status = 401 ↔
      VerifyWebhookSignature
        (req.body.take (NewWebhookReceiver secret handler opts).maxBodySize)
        req.sigHeader secret = false) ∧
    (VerifyWebhookSignature
        (req.body.take (NewWebhookReceiver secret handler opts).maxBodySize)
        req.sigHeader secret = true →
      ((((NewWebhookReceiver secret handler opts).ServeHTTP req).response.status = 400) ↔
        ParseWebhookNotification
          (req.body.take (NewWebhookReceiver secret handler opts).maxBodySize) = none) ∧
      (∀ n, ParseWebhookNotification
          (req.body.take (NewWebhookReceiver secret handler opts).maxBodySize) = some n →
        ((NewWebhookReceiver secret handler opts).ServeHTTP req).handlerCalls = [n])) := by
  have hVS : verifySignature
      (req.body.take (NewWebhookReceiver secret handler opts).maxBodySize) req.sigHeader
      (NewWebhookReceiver secret handler opts).secret =
      VerifyWebhookSignature
        (req.body.take (NewWebhookReceiver secret handler opts).maxBodySize)
        req.sigHeader secret := by
    rw [VerifyWebhookSignature, NewWebhookReceiver_secret]
  have hserve : (NewWebhookReceiver secret handler opts).ServeHTTP req =
      (NewWebhookReceiver secret handler opts).handleBody req.sigHeader
        (req.body.take (NewWebhookReceiver secret handler opts).maxBodySize) := by
    unfold WebhookReceiver.ServeHTTP
    rw [if_neg (by simp [hm]), if_neg (by simp [hr])]
  rw [hserve, ← hVS]
  unfold WebhookReceiver.handleBody
  rw [if_neg (by simp [hskip, hs])]
  cases hv : verifySignature
      (req.body.take (NewWebhookReceiver secret handler opts).maxBodySize) req.sigHeader
      (NewWebhookReceiver secret handler opts).secret with
  | false =>
    rw [if_pos (by simp [hskip, hv])]
    exact ⟨by simp, fun ht => absurd ht (by simp)⟩
  | true =>
    rw [if_neg (by simp [hv])]
    cases hp : ParseWebhookNotification
        (req.body.take (NewWebhookReceiver secret handler opts).maxBodySize) with
    | none =>
      simp only [hp]
      exact ⟨by simp, fun _ => ⟨by simp, fun n hn => by simp at hn⟩⟩
    | some n =>
      simp only [hp]
      split
      · refine ⟨by simp, fun _ => ⟨by simp, fun n' hn' => ?_⟩⟩
        cases hn'
        rfl
      · refine ⟨by simp, fun _ => ⟨by simp, fun n' hn' => ?_⟩⟩
        cases hn'
        rfl

/-- A POST request carrying the JSON document `null` and a syntactically
well-formed but mismatching signature. -/
def reqBadSig : HttpRequest := ⟨"POST", "ff", strBytes "null", false⟩

theorem standalone_primitives_match_receiver_witness :
    ((NewWebhookReceiver "k" handlerOk []).ServeHTTP reqBadSig).response.status = 401 ↔
      VerifyWebhookSignature
        (reqBadSig.body.take (NewWebhookReceiver "k" handlerOk []).maxBodySize)
        reqBadSig.sigHeader "k" = false :=
  (standalone_primitives_match_receiver "k" handlerOk [] reqBadSig rfl rfl rfl (by decide)).1

/-! ## Client lemmas -/

theorem foldlM_clientOption_config_error (opts : List ClientOption) (c : Client) (e : CSError)
    (h : opts.foldlM applyClientOption c = .error e) : e.isConfigError = true := by
  induction opts generalizing c with
  | nil => exact absurd h (by simp [List.foldlM, pure, Except.pure])
  | cons o rest ih =>
    rw [List.foldlM_cons] at h
    cases ho : applyClientOption c o with
    | error e' =>
      rw [ho] at h
      have he : e = e' := by
        cases h
        rfl
      subst he
      cases o with
      | withBaseURL b parsed =>
        cases parsed with
        | none =>
          cases ho
          rfl
        | some u => cases ho
      | withHTTPClient hc =>
        cases hc with
        | none =>
          cases ho
          rfl
        | some x => cases ho
    | ok c' =>
      rw [ho] at h
      exact ih c' h

/-- C4: the configuration errors — invalid base address, missing
credential, invalid (nil) transport — arise only inside `NewClient` and
its options; once a `Client` is constructed, no call through the request
executor ever returns one of them, whatever the call environment does. -/
theorem config_errors_only_at_construction :
    (∀ (token : String) (opts : List ClientOption) (e : CSError),
      NewClient token opts = .error e → e.isConfigError = true) ∧
    (∀ (token : String) (opts : List ClientOption) (c : Client) (path : String)
      (env : CallEnv) (hasBody wantResult : Bool) (e : CSError),
      NewClient token opts = .ok c →
      c.request path env hasBody wantResult = .error e → e.isConfigError = false) := by
  constructor
  · intro token opts e h
    unfold NewClient at h
    split at h
    · cases h
      rfl
    · exact foldlM_clientOption_config_error opts _ e h
  · intro token opts c path env hasBody wantResult e _hc h
    unfold Client.request at h
    split at h
    · cases h
      rfl
    · split at h
      · cases h
        rfl
      · split at h
        · cases h
          rfl
        · split at h
          · cases h
            rfl
          · split at h
            · cases h
              rfl
            · split at h
              · split at h
                · cases h
                  rfl
                · cases h
                  rfl
              · split at h
                · split at h
                  · cases h
                    rfl
                  · cases h
                · cases h

theorem config_errors_only_at_construction_witness :
    CSError.missingToken.isConfigError = true ∧
    CSError.transportFailed.isConfigError = false :=
  ⟨config_errors_only_at_construction.1 "" [] .missingToken (by rfl),
   config_errors_only_at_construction.2 "t" [] ⟨defaultBaseURL, "t", some 0⟩
      "/v2/usage/monthly" ⟨some "https://api.core.stream/v2/usage/monthly", none, true, none⟩
      false false .transportFailed (by rfl) (by rfl)⟩

/-- The code and message `request` extracts from an error body: the
envelope's fields when the body parses, empty strings otherwise. -/
def envelopeCodeMsg (respBody : List Nat) : String × String :=
  match parseErrorEnvelope respBody with
  | some e => (e.code, e.message)
  | none => ("", "")

/-- C5: a 404/401/403/429 response makes `request` return an `APIError`
that the matching predicate accepts — carrying the envelope's code and
message when the body is a well-formed envelope, and empty code and
message when the body does not parse (classification then rests on the
status code alone). -/
theorem api_error_classification (c : Client) (path : String) (env : CallEnv)
    (hasBody wantResult : Bool) (resp : TransportResponse) (respBody : List Nat)
    (hres : env.resolve.isSome = true)
    (hmar : (hasBody && env.marshal.isNone) = false)
    (hreq : env.newRequestOk = true)
    (htr : env.transport = some resp)
    (hread : resp.bodyRead = some respBody)
    (hst : resp.status = 404 ∨ resp.status = 401 ∨ resp.status = 403 ∨ resp.status = 429) :
    c.request path env hasBody wantResult =
      .error (.api ⟨resp.status, (envelopeCodeMsg respBody).1, (envelopeCodeMsg respBody).2⟩) ∧
    (resp.status = 404 → IsNotFound
      (.api ⟨resp.status, (envelopeCodeMsg respBody).1, (envelopeCodeMsg respBody).2⟩) = true) ∧
    (resp.status = 401 → IsUnauthorized
      (.api ⟨resp.status, (envelopeCodeMsg respBody).1, (envelopeCodeMsg respBody).2⟩) = true) ∧
    (resp.status = 403 → IsForbidden
      (.api ⟨resp.status, (envelopeCodeMsg respBody).1, (envelopeCodeMsg respBody).2⟩) = true) ∧
    (resp.status = 429 → IsRateLimited
      (.api ⟨resp.status, (envelopeCodeMsg respBody).1, (envelopeCodeMsg respBody).2⟩) = true) := by
  obtain ⟨u, hu⟩ := Option.isSome_iff_exists.mp hres
  have h400 : resp.status ≥ 400 := by rcases hst with h | h | h | h <;> omega
  refine ⟨?_, ?_, ?_, ?_, ?_⟩
  · unfold Client.request
    simp only [hu]
    rw [if_neg (by simp [hmar]), if_neg (by simp [hreq])]
    simp only [htr, hread]
    rw [if_pos h400]
    cases hrb : respBody with
    | nil =>
      have hem : envelopeCodeMsg [] = ("", "") := rfl
      simp [hem]
    | cons b rest =>
      rw [if_pos (by simp)]
      unfold envelopeCodeMsg
      cases hpe : parseErrorEnvelope (b :: rest) with
      | none => simp [hpe]
      | some ev => simp [hpe]
  · intro h
    simp [IsNotFound, isStatusCode, h]
  · intro h
    simp [IsUnauthorized, isStatusCode, h]
  · intro h
    simp [IsForbidden, isStatusCode, h]
  · intro h
    simp [IsRateLimited, isStatusCode, h]

/-- A well-formed 404 error-envelope body. -/
def body404 : List Nat :=
  strBytes "\x7b\"error\":\x7b\"code\":\"not_found\",\"message\":\"alert not found\"\x7d\x7d"

/-- A call environment whose transport answers 404 with `body404`. -/
def env404 : CallEnv :=
  ⟨some "https://api.core.stream/v2/alerts/alert_123", none, true, some ⟨404, some body404⟩⟩

/-- A constructed test client. -/
def clientT : Client := ⟨defaultBaseURL, "test-token", some 0⟩

theorem api_error_classification_witness :
    envelopeCodeMsg body404 = ("not_found", "alert not found") ∧
    envelopeCodeMsg (strBytes "oops not json") = ("", "") ∧
    clientT.request "/v2/alerts/alert_123" env404 false false =
      .error (.api ⟨404, (envelopeCodeMsg body404).1, (envelopeCodeMsg body404).2⟩) ∧
    IsNotFound (.api ⟨404, (envelopeCodeMsg body404).1, (envelopeCodeMsg body404).2⟩) = true :=
  have H := api_error_classification clientT "/v2/alerts/alert_123" env404 false false
    ⟨404, some body404⟩ body404 (by decide) (by decide) rfl rfl rfl (Or.inl rfl)
  ⟨by decide, by decide, H.1, H.2.1 rfl⟩
